import Mathlib

/-!
Shallow embedding of the metrics core of `giantswarm/cert-manager-upstream`
(package `metrics`): the label-vector instruments, the incremental and
full-recomputation update paths for `current_certificate_request_count`,
the idempotent-registration loop of `NewServer`, and the exposition
server configuration.

Prometheus float64 samples are modelled as `Int` (gauges) and `Nat`
(counters); all counts involved are small integers, so the numeric
embedding is exact.
-/

namespace CertManagerMetrics

/-- The label-value tuple of the five-label certificate metrics:
`{name, namespace, issuer_name, issuer_kind, issuer_group}`. -/
structure Labels where
  name : String
  namespace_ : String
  issuerName : String
  issuerKind : String
  issuerGroup : String
deriving DecidableEq, Repr

/-- A certificate-request record as consumed by
`UpdateCurrentCertificateRequestCount`: object name, namespace and the
`Spec.IssuerRef` name/kind/group fields. -/
structure CertificateRequest where
  name : String
  namespace_ : String
  issuerRefName : String
  issuerRefKind : String
  issuerRefGroup : String
deriving DecidableEq, Repr

/-- The `prometheus.Labels` map built in the loop body of
`UpdateCurrentCertificateRequestCount` from a record's fields. -/
def labelsOf (cr : CertificateRequest) : Labels :=
  { name := cr.name
    namespace_ := cr.namespace_
    issuerName := cr.issuerRefName
    issuerKind := cr.issuerRefKind
    issuerGroup := cr.issuerRefGroup }

/-- A `prometheus.CounterVec`: the finite map from label-value tuples to
counter children, as an association list (a child exists exactly for the
tuples that have been observed). -/
abbrev CounterVec : Type := List (Labels × Nat)

/-- Value currently stored for a tuple, `none` when the vector has no
child for it. -/
def cvLookup (t : Labels) : CounterVec → Option Nat
  | [] => none
  | (s, n) :: v => if s = t then some n else cvLookup t v

/-- `vec.With(labels).Inc()`: lazily create the child at value 0 on first
observation of the tuple, then add one. -/
def cvInc (t : Labels) : CounterVec → CounterVec
  | [] => [(t, 1)]
  | (s, n) :: v => if s = t then (s, n + 1) :: v else (s, n) :: cvInc t v

/-- `vec.Reset()`: delete every child of the vector. -/
def cvReset (_ : CounterVec) : CounterVec := []

/-- `UpdateCurrentCertificateRequestCount` (the reset-then-repopulate
variant that is current in the repository): reset the package-level
`currentCertificateRequestCount` vector, then do one `With(labels).Inc()`
per record of the snapshot. -/
def UpdateCurrentCertificateRequestCount (crs : List CertificateRequest)
    (v : CounterVec) : CounterVec :=
  crs.foldl (fun acc cr => cvInc (labelsOf cr) acc) (cvReset v)

/-- Number of snapshot records carrying a given label tuple. -/
def recordCount (crs : List CertificateRequest) (t : Labels) : Nat :=
  crs.countP (fun cr => labelsOf cr = t)

theorem cvLookup_cvInc_self (t : Labels) (v : CounterVec) :
    cvLookup t (cvInc t v) = some ((cvLookup t v).getD 0 + 1) := by
  induction v with
  | nil => simp [cvInc, cvLookup]
  | cons p v ih =>
    obtain ⟨s, n⟩ := p
    by_cases h : s = t
    · simp [cvInc, cvLookup, h]
    · simp [cvInc, cvLookup, h, ih]

theorem cvLookup_cvInc_other {s t : Labels} (h : s ≠ t) (v : CounterVec) :
    cvLookup t (cvInc s v) = cvLookup t v := by
  induction v with
  | nil => simp [cvInc, cvLookup, h]
  | cons p v ih =>
    obtain ⟨u, n⟩ := p
    by_cases hu : u = s
    · subst hu; simp [cvInc, cvLookup, h]
    · by_cases hut : u = t
      · simp [cvInc, cvLookup, hu, hut, Ne.symm h]
      · simp [cvInc, cvLookup, hu, hut, ih]

theorem cvLookup_foldInc (crs : List CertificateRequest) (acc : CounterVec)
    (t : Labels) :
    cvLookup t (crs.foldl (fun a cr => cvInc (labelsOf cr) a) acc) =
      match cvLookup t acc with
      | some n => some (n + recordCount crs t)
      | none =>
          if recordCount crs t = 0 then none else some (recordCount crs t) := by
  induction crs generalizing acc with
  | nil => cases h : cvLookup t acc <;> simp [recordCount, h]
  | cons cr crs ih =>
    by_cases hcr : labelsOf cr = t
    · subst hcr
      rw [List.foldl_cons, ih]
      rw [cvLookup_cvInc_self]
      cases h : cvLookup (labelsOf cr) acc <;>
        simp [recordCount, List.countP_cons, h] <;> omega
    · rw [List.foldl_cons, ih]
      rw [cvLookup_cvInc_other hcr]
      cases h : cvLookup t acc <;> simp [recordCount, List.countP_cons, hcr, h]

/-- A `prometheus.GaugeVec`: finite map from label-value tuples to gauge
children (float64 samples modelled as `Int`). -/
abbrev GaugeVec : Type := List (Labels × Int)

/-- Value currently stored for a tuple in a gauge vector, `none` when it
has no child for it. -/
def gvLookup (t : Labels) : GaugeVec → Option Int
  | [] => none
  | (s, n) :: v => if s = t then some n else gvLookup t v

/-- `vec.WithLabelValues(...).Inc()`: lazily create the child at value 0
on first observation of the tuple, then add one. -/
def gvInc (t : Labels) : GaugeVec → GaugeVec
  | [] => [(t, 1)]
  | (s, n) :: v => if s = t then (s, n + 1) :: v else (s, n) :: gvInc t v

/-- `vec.WithLabelValues(...).Dec()`: lazily create the child at value 0
on first observation of the tuple, then subtract one. -/
def gvDec (t : Labels) : GaugeVec → GaugeVec
  | [] => [(t, -1)]
  | (s, n) :: v => if s = t then (s, n - 1) :: v else (s, n) :: gvDec t v

/-- One call on the incremental update path: either
`IncrementCurrentCertificateRequest` or
`DecrementCurrentCertificateRequest` with a concrete label tuple. -/
inductive GaugeOp where
  | inc (t : Labels)
  | dec (t : Labels)
deriving DecidableEq, Repr

/-- Apply one incremental call to the `certificateRequestCount` gauge
vector (the `WithLabelValues(...).Inc()` / `...Dec()` bodies of
`IncrementCurrentCertificateRequest` / `DecrementCurrentCertificateRequest`). -/
def applyGaugeOp (v : GaugeVec) : GaugeOp → GaugeVec
  | .inc t => gvInc t v
  | .dec t => gvDec t v

/-- Apply a finite sequence of incremental calls in order. -/
def applyGaugeOps (ops : List GaugeOp) (v : GaugeVec) : GaugeVec :=
  ops.foldl applyGaugeOp v

/-- The tuple an operation touches. -/
def GaugeOp.labels : GaugeOp → Labels
  | .inc t => t
  | .dec t => t

/-- Number of increments applied to a given tuple in a call sequence. -/
def incCount (ops : List GaugeOp) (t : Labels) : Nat :=
  ops.countP (fun o => o = .inc t)

/-- Number of decrements applied to a given tuple in a call sequence. -/
def decCount (ops : List GaugeOp) (t : Labels) : Nat :=
  ops.countP (fun o => o = .dec t)

theorem incCount_cons_self (ops : List GaugeOp) (t : Labels) :
    incCount (.inc t :: ops) t = incCount ops t + 1 := by
  simp [incCount, List.countP_cons, Nat.add_comm]

theorem incCount_cons_ne {o : GaugeOp} {t : Labels} (h : o ≠ .inc t)
    (ops : List GaugeOp) : incCount (o :: ops) t = incCount ops t := by
  simp [incCount, List.countP_cons, h]

theorem decCount_cons_self (ops : List GaugeOp) (t : Labels) :
    decCount (.dec t :: ops) t = decCount ops t + 1 := by
  simp [decCount, List.countP_cons, Nat.add_comm]

theorem decCount_cons_ne {o : GaugeOp} {t : Labels} (h : o ≠ .dec t)
    (ops : List GaugeOp) : decCount (o :: ops) t = decCount ops t := by
  simp [decCount, List.countP_cons, h]

theorem gvLookup_gvInc_self (t : Labels) (v : GaugeVec) :
    gvLookup t (gvInc t v) = some ((gvLookup t v).getD 0 + 1) := by
  induction v with
  | nil => simp [gvInc, gvLookup]
  | cons p v ih =>
    obtain ⟨s, n⟩ := p
    by_cases h : s = t
    · simp [gvInc, gvLookup, h]
    · simp [gvInc, gvLookup, h, ih]

theorem gvLookup_gvInc_other {s t : Labels} (h : s ≠ t) (v : GaugeVec) :
    gvLookup t (gvInc s v) = gvLookup t v := by
  induction v with
  | nil => simp [gvInc, gvLookup, h]
  | cons p v ih =>
    obtain ⟨u, n⟩ := p
    by_cases hu : u = s
    · subst hu; simp [gvInc, gvLookup, h]
    · by_cases hut : u = t
      · simp [gvInc, gvLookup, hu, hut, Ne.symm h]
      · simp [gvInc, gvLookup, hu, hut, ih]

theorem gvLookup_gvDec_self (t : Labels) (v : GaugeVec) :
    gvLookup t (gvDec t v) = some ((gvLookup t v).getD 0 - 1) := by
  induction v with
  | nil => simp [gvDec, gvLookup]
  | cons p v ih =>
    obtain ⟨s, n⟩ := p
    by_cases h : s = t
    · simp [gvDec, gvLookup, h]
    · simp [gvDec, gvLookup, h, ih]

theorem gvLookup_gvDec_other {s t : Labels} (h : s ≠ t) (v : GaugeVec) :
    gvLookup t (gvDec s v) = gvLookup t v := by
  induction v with
  | nil => simp [gvDec, gvLookup, h]
  | cons p v ih =>
    obtain ⟨u, n⟩ := p
    by_cases hu : u = s
    · subst hu; simp [gvDec, gvLookup, h]
    · by_cases hut : u = t
      · simp [gvDec, gvLookup, hu, hut, Ne.symm h]
      · simp [gvDec, gvLookup, hu, hut, ih]

/-- Characterization of a whole incremental call sequence: a tuple the
sequence never touches keeps its child (or absence) unchanged; a touched
tuple ends at its prior value (0 when absent) plus increments minus
decrements. -/
theorem gvLookup_applyGaugeOps (ops : List GaugeOp) (v : GaugeVec)
    (t : Labels) :
    gvLookup t (applyGaugeOps ops v) =
      if incCount ops t + decCount ops t = 0 then gvLookup t v
      else some ((gvLookup t v).getD 0 + (incCount ops t : Int) -
        (decCount ops t : Int)) := by
  induction ops generalizing v with
  | nil => simp [applyGaugeOps, incCount, decCount]
  | cons o ops ih =>
    have hstep : applyGaugeOps (o :: ops) v = applyGaugeOps ops (applyGaugeOp v o) := by
      simp [applyGaugeOps]
    rw [hstep, ih]
    cases o with
    | inc s =>
      simp only [applyGaugeOp]
      by_cases hst : s = t
      · subst hst
        rw [gvLookup_gvInc_self, incCount_cons_self,
          decCount_cons_ne (by simp)]
        split_ifs <;>
          (try simp only [Option.getD_some, Option.some.injEq]) <;> omega
      · rw [gvLookup_gvInc_other hst, incCount_cons_ne (by simp [hst]),
          decCount_cons_ne (by simp)]
    | dec s =>
      simp only [applyGaugeOp]
      by_cases hst : s = t
      · subst hst
        rw [gvLookup_gvDec_self, decCount_cons_self,
          incCount_cons_ne (by simp)]
        split_ifs <;>
          (try simp only [Option.getD_some, Option.some.injEq]) <;> omega
      · rw [gvLookup_gvDec_other hst, incCount_cons_ne (by simp),
          decCount_cons_ne (by simp [hst])]

/-! ## Metrics state and the two update paths

`Metrics.certificateRequestCount` is the `*prometheus.GaugeVec` field of
the `Metrics` struct; `NewServer` attaches it to `m.registry`, the
registry served on `/metrics`.  The package-level
`currentCertificateRequestCount` is built with `promauto.NewCounterVec`,
which registers it with `prometheus.DefaultRegisterer` — a different
registry than `m.registry`.  Both carry the metric name
`current_certificate_request_count`. -/

/-- The mutable metrics state relevant to the
`current_certificate_request_count` claims, plus the diagnostic log. -/
structure MetricsState where
  /-- `m.certificateRequestCount` (GaugeVec), held in `m.registry` and
  hence on the exposition path of the server built by `NewServer`. -/
  certificateRequestCount : GaugeVec
  /-- package-level `currentCertificateRequestCount` (CounterVec),
  registered by `promauto` with the default registerer, not `m.registry`. -/
  currentCertificateRequestCount : CounterVec
  /-- messages emitted through `m.log` / `log.Println`. -/
  logs : List String
deriving DecidableEq, Repr

/-- A fresh `Metrics` value: both vectors empty, nothing logged. -/
def initialMetricsState : MetricsState :=
  { certificateRequestCount := []
    currentCertificateRequestCount := []
    logs := [] }

/-- `(m *Metrics) IncrementCurrentCertificateRequest`: log, then
`m.certificateRequestCount.WithLabelValues(...).Inc()`. -/
def IncrementCurrentCertificateRequest
    (name namespace_ issuerName issuerKind issuerGroup : String)
    (st : MetricsState) : MetricsState :=
  { st with
    logs := st.logs ++ ["Incrementing certificateRequestCount"]
    certificateRequestCount :=
      gvInc ⟨name, namespace_, issuerName, issuerKind, issuerGroup⟩
        st.certificateRequestCount }

/-- `(m *Metrics) DecrementCurrentCertificateRequest`: log, then
`m.certificateRequestCount.WithLabelValues(...).Dec()`. -/
def DecrementCurrentCertificateRequest
    (name namespace_ issuerName issuerKind issuerGroup : String)
    (st : MetricsState) : MetricsState :=
  { st with
    logs := st.logs ++ ["Decrementing certificateRequestCount"]
    certificateRequestCount :=
      gvDec ⟨name, namespace_, issuerName, issuerKind, issuerGroup⟩
        st.certificateRequestCount }

/-- The method `(m *Metrics) UpdateCurrentCertificateRequestCount` on the
whole state: it resets and repopulates the package-level
`currentCertificateRequestCount` counter vector only. -/
def updateCurrentCertificateRequestCountM (crs : List CertificateRequest)
    (st : MetricsState) : MetricsState :=
  { st with
    currentCertificateRequestCount :=
      UpdateCurrentCertificateRequestCount crs
        st.currentCertificateRequestCount }

/-- `(m *Metrics) getCurrentCertificateRequests`: `m.client.List` either
fails or yields the item list; the client is modelled by its outcome. -/
def getCurrentCertificateRequests
    (client : Except String (List CertificateRequest)) :
    Except String (List CertificateRequest) :=
  match client with
  | .error err => .error err
  | .ok items => .ok items

/-- `(m *Metrics) HandleCertificateRequestEvent(ctx, cr, event)`: list the
current certificate requests; on error log and return, otherwise run the
full recomputation.  The `cr` and `event` arguments are modelled with the
types of the Go parameters (`*cmapi.CertificateRequest`,
`cache.ResourceEventHandler`); the body never reads them. -/
def HandleCertificateRequestEvent
    (client : Except String (List CertificateRequest))
    (cr : Option CertificateRequest) (event : Unit)
    (st : MetricsState) : MetricsState :=
  match getCurrentCertificateRequests client with
  | .error err =>
      { st with logs := st.logs ++ ["Error fetching CertificateRequests: " ++ err] }
  | .ok crs => updateCurrentCertificateRequestCountM crs st

/-- What the exposition handler built by `NewServer` shows for metric
name `current_certificate_request_count` at a label tuple: the server
serves `m.registry`, which holds the `certificateRequestCount` gauge
vector (the same-named package-level counter sits in the default
registry and is not served here). -/
def expositionCurrentCertificateRequestCount (st : MetricsState)
    (t : Labels) : Option Int :=
  gvLookup t st.certificateRequestCount

/-! ## Clock-derived metrics (`New`) -/

/-- The injected `clock.Clock` abstraction: only `Now().Unix()` is used. -/
structure Clock where
  nowUnix : Int
deriving DecidableEq, Repr

/-- The collect callback of the deprecated `clock_time_seconds`
`CounterFunc` built in `New`: `float64(c.Now().Unix())`. -/
def clockTimeSecondsValue (c : Clock) : Int :=
  c.nowUnix

/-- The collect callback of the `clock_time_seconds_gauge` `GaugeFunc`
built in `New`: `float64(c.Now().Unix())`. -/
def clockTimeSecondsGaugeValue (c : Clock) : Int :=
  c.nowUnix

/-! ## `m.registry` and the registration loop of `NewServer` -/

/-- A registered collector, identified (as in `prometheus.Registry`) by
the object itself — modelled by an `id` — and carrying its descriptor:
fully-qualified metric name and label-key schema. -/
structure Collector where
  id : Nat
  fqName : String
  labelKeys : List String
deriving DecidableEq, Repr

abbrev Registry : Type := List Collector

/-- `registry.Unregister(c)`: remove the collector and report whether it
was present. -/
def Unregister (c : Collector) (reg : Registry) : Bool × Registry :=
  (reg.any (fun d => d.id == c.id), reg.filter (fun d => d.id != c.id))

/-- `registry.Register(c)`: fails when some already-registered collector
claims the same fully-qualified metric name; otherwise adds `c`. -/
def Register (c : Collector) (reg : Registry) : Except Unit Registry :=
  if reg.any (fun d => d.fqName == c.fqName) then .error ()
  else .ok (c :: reg)

/-- One `m.log` event recorded by the registration loop. -/
inductive RegLog where
  | failedToRegister (desc : String)
  | registered (desc : String)
  | alreadyRegisteredSkipping (desc : String)
deriving DecidableEq, Repr

/-- Registry plus the log, the state the loop threads. -/
structure RegState where
  registry : Registry
  logs : List RegLog
deriving DecidableEq, Repr

/-- The body of `NewServer`'s loop for one metric:
`alreadyRegistered := m.registry.Unregister(metric)`; when that reports
`false`, `m.registry.Register(metric)` with error logged non-fatally;
when it reports `true`, log "Metric already registered; skipping". -/
def registerStep (st : RegState) (metric : Collector) : RegState :=
  let res := Unregister metric st.registry
  if !res.fst then
    match Register metric res.snd with
    | .error _ =>
        { registry := res.snd
          logs := st.logs ++ [.failedToRegister metric.fqName] }
    | .ok reg2 =>
        { registry := reg2
          logs := st.logs ++ [.registered metric.fqName] }
  else
    { registry := res.snd
      logs := st.logs ++ [.alreadyRegisteredSkipping metric.fqName] }

/-- The whole `for _, metric := range metricsToRegister` loop. -/
def registerLoop (metrics : List Collector) (st : RegState) : RegState :=
  metrics.foldl registerStep st

/-- The `metricsToRegister` list of `NewServer`, in source order, with
the fully-qualified names produced by the `certmanager` namespace and
`http` subsystem options of `New`. -/
def metricsToRegister : List Collector :=
  [ ⟨0, "current_certificate_request_count",
      ["name", "namespace", "issuer_name", "issuer_kind", "issuer_group"]⟩,
    ⟨1, "certmanager_clock_time_seconds", []⟩,
    ⟨2, "certmanager_clock_time_seconds_gauge", []⟩,
    ⟨3, "certmanager_certificate_expiration_timestamp_seconds",
      ["name", "namespace", "issuer_name", "issuer_kind", "issuer_group"]⟩,
    ⟨4, "certmanager_certificate_renewal_timestamp_seconds",
      ["name", "namespace", "issuer_name", "issuer_kind", "issuer_group"]⟩,
    ⟨5, "certmanager_certificate_ready_status",
      ["name", "namespace", "condition", "issuer_name", "issuer_kind",
       "issuer_group"]⟩,
    ⟨6, "certmanager_http_acme_client_request_duration_seconds",
      ["scheme", "host", "path", "method", "status"]⟩,
    ⟨7, "certmanager_http_venafi_client_request_duration_seconds",
      ["api_call"]⟩,
    ⟨8, "certmanager_http_acme_client_request_count",
      ["scheme", "host", "path", "method", "status"]⟩,
    ⟨9, "certmanager_controller_sync_call_count", ["controller"]⟩,
    ⟨10, "certmanager_controller_sync_error_count", ["controller"]⟩ ]

/-! ## Exposition server configuration (`NewServer`) -/

/-- `time.Second` in nanoseconds (`time.Duration` is an int64 nanosecond
count). -/
def timeSecond : Nat := 1000000000

/-- `prometheusMetricsServerReadTimeout = 8 * time.Second`. -/
def prometheusMetricsServerReadTimeout : Nat := 8 * timeSecond

/-- `prometheusMetricsServerWriteTimeout = 8 * time.Second`. -/
def prometheusMetricsServerWriteTimeout : Nat := 8 * timeSecond

/-- `prometheusMetricsServerMaxHeaderBytes = 1 << 20` (1 MiB). -/
def prometheusMetricsServerMaxHeaderBytes : Nat := 1 <<< 20

/-- The `&http.Server{...}` literal that `NewServer` returns. -/
structure HttpServer where
  addr : String
  readTimeout : Nat
  writeTimeout : Nat
  maxHeaderBytes : Nat
deriving DecidableEq, Repr

/-- `(m *Metrics) NewServer(ln)`: run the registration loop on
`m.registry`, then build the server bound to the listener's address with
the fixed timeouts and header-size bound. -/
def NewServer (lnAddr : String) (st : RegState) : RegState × HttpServer :=
  (registerLoop metricsToRegister st,
   { addr := lnAddr
     readTimeout := prometheusMetricsServerReadTimeout
     writeTimeout := prometheusMetricsServerWriteTimeout
     maxHeaderBytes := prometheusMetricsServerMaxHeaderBytes })

/-! ## Incremental call sequences as method calls -/

/-- Perform one incremental method call
(`IncrementCurrentCertificateRequest` / `DecrementCurrentCertificateRequest`)
with the operation's label tuple. -/
def applyCall (st : MetricsState) : GaugeOp → MetricsState
  | .inc t =>
      IncrementCurrentCertificateRequest t.name t.namespace_ t.issuerName
        t.issuerKind t.issuerGroup st
  | .dec t =>
      DecrementCurrentCertificateRequest t.name t.namespace_ t.issuerName
        t.issuerKind t.issuerGroup st

/-- Perform a finite sequence of incremental method calls in order. -/
def applyCalls (ops : List GaugeOp) (st : MetricsState) : MetricsState :=
  ops.foldl applyCall st

theorem applyCalls_certificateRequestCount (ops : List GaugeOp)
    (st : MetricsState) :
    (applyCalls ops st).certificateRequestCount =
      applyGaugeOps ops st.certificateRequestCount := by
  induction ops generalizing st with
  | nil => rfl
  | cons o ops ih =>
    cases o with
    | inc t =>
      simp only [applyCalls, List.foldl_cons] at *
      rw [ih]
      rfl
    | dec t =>
      simp only [applyCalls, List.foldl_cons] at *
      rw [ih]
      rfl

end CertManagerMetrics

namespace CertManagerMetrics

/-!  ## The claims  -/

/-- Claim C1 (code bug): repeated runs of `NewServer`'s registration loop
do NOT leave exactly one live instance per definition.  The loop uses
`m.registry.Unregister(metric)` as a presence check, but `Unregister`
removes the collector; on a repeated run it reports `true`, the
re-registration is skipped (with an "already registered" log that
contradicts the just-performed removal), and the registry ends up with
NO live instance of any of the eleven definitions.  A single pass does
register all eleven, so the failure needs at least two passes.  This
theorem evaluates the loop at that failing input: after one pass the
registry holds the eleven collectors; after a second pass it is empty,
and after a third pass the instances are back (membership toggles). -/
theorem claim_C1 :
    (registerLoop metricsToRegister
      (RegState.mk [] [])).registry.length = 11 ∧
    (registerLoop metricsToRegister (registerLoop metricsToRegister
      (RegState.mk [] []))).registry = [] ∧
    (registerLoop metricsToRegister (registerLoop metricsToRegister
      (registerLoop metricsToRegister
        (RegState.mk [] [])))).registry.length = 11 := by
  refine ⟨by rfl, by rfl, by rfl⟩

/-- Claim C2: the reset-then-repopulate recomputation
`UpdateCurrentCertificateRequestCount` first empties the vector and then
increments once per record, so afterwards every label tuple carried by at
least one snapshot record maps to exactly the number of records carrying
it, tuples absent from the snapshot have no entry, and the empty snapshot
yields the empty vector. -/
theorem claim_C2 (crs : List CertificateRequest) (v : CounterVec) :
    (∀ t : Labels,
      cvLookup t (UpdateCurrentCertificateRequestCount crs v) =
        if recordCount crs t = 0 then none else some (recordCount crs t)) ∧
    UpdateCurrentCertificateRequestCount [] v = [] := by
  constructor
  · intro t
    rw [UpdateCurrentCertificateRequestCount, cvLookup_foldInc]
    rfl
  · rfl

/-- Claim C3 (code bug): after two `IncrementCurrentCertificateRequest`
calls on the tuple (cert-a, ns1, issuer1, ClusterIssuer, cert-manager.io)
the exposition serves 2, but a subsequent
`UpdateCurrentCertificateRequestCount` with a single matching record does
NOT make the exposition serve 1: the recomputation mutates the
package-level `promauto` counter registered with the default registerer,
while the server built by `NewServer` serves `m.registry`, which holds
the separate `certificateRequestCount` gauge vector of the same metric
name.  The exposed value stays 2 and the recomputed value 1 lands on the
unexposed counter. -/
theorem claim_C3 :
    expositionCurrentCertificateRequestCount
      (IncrementCurrentCertificateRequest "cert-a" "ns1" "issuer1"
        "ClusterIssuer" "cert-manager.io"
        (IncrementCurrentCertificateRequest "cert-a" "ns1" "issuer1"
          "ClusterIssuer" "cert-manager.io" initialMetricsState))
      ⟨"cert-a", "ns1", "issuer1", "ClusterIssuer", "cert-manager.io"⟩ =
        some 2 ∧
    expositionCurrentCertificateRequestCount
      (updateCurrentCertificateRequestCountM
        [⟨"cert-a", "ns1", "issuer1", "ClusterIssuer", "cert-manager.io"⟩]
        (IncrementCurrentCertificateRequest "cert-a" "ns1" "issuer1"
          "ClusterIssuer" "cert-manager.io"
          (IncrementCurrentCertificateRequest "cert-a" "ns1" "issuer1"
            "ClusterIssuer" "cert-manager.io" initialMetricsState)))
      ⟨"cert-a", "ns1", "issuer1", "ClusterIssuer", "cert-manager.io"⟩ =
        some 2 ∧
    cvLookup
      ⟨"cert-a", "ns1", "issuer1", "ClusterIssuer", "cert-manager.io"⟩
      (updateCurrentCertificateRequestCountM
        [⟨"cert-a", "ns1", "issuer1", "ClusterIssuer", "cert-manager.io"⟩]
        (IncrementCurrentCertificateRequest "cert-a" "ns1" "issuer1"
          "ClusterIssuer" "cert-manager.io"
          (IncrementCurrentCertificateRequest "cert-a" "ns1" "issuer1"
            "ClusterIssuer" "cert-manager.io"
            initialMetricsState))).currentCertificateRequestCount =
        some 1 := by
  refine ⟨by rfl, by rfl, by rfl⟩

/-- Claim C4: when `Register` fails because a different collector (other
identity, same fully-qualified name, different label-key set) is already
attached, the loop body logs the failure with the metric's descriptor,
raises nothing (the loop state carries no error channel, matching
`NewServer`'s error-free signature), leaves the originally registered
collector in the registry unchanged, and processing continues with the
remaining metrics. -/
theorem claim_C4 (c d : Collector) (rest : List Collector)
    (logs : List RegLog) (hname : c.fqName = d.fqName)
    (hid : c.id ≠ d.id) (hkeys : c.labelKeys ≠ d.labelKeys) :
    registerLoop (c :: rest) (RegState.mk [d] logs) =
      registerLoop rest
        (RegState.mk [d] (logs ++ [.failedToRegister c.fqName])) := by
  have h1 : (d.id == c.id) = false := by
    simp [Ne.symm hid]
  have h3 : (d.fqName == c.fqName) = true := by
    simp [hname]
  simp [registerLoop, registerStep, Unregister, Register, h1, h3, bne]

/-- Witness for claim C4 at a concrete conflicting pair: a new collector
with the name `current_certificate_request_count` but a one-key label
schema against the already-registered five-key collector. -/
theorem claim_C4_witness :
    (Collector.mk 100 "current_certificate_request_count" ["name"]).fqName =
      (Collector.mk 0 "current_certificate_request_count"
        ["name", "namespace", "issuer_name", "issuer_kind",
         "issuer_group"]).fqName ∧
    registerLoop
      [Collector.mk 100 "current_certificate_request_count" ["name"]]
      (RegState.mk
        [Collector.mk 0 "current_certificate_request_count"
          ["name", "namespace", "issuer_name", "issuer_kind",
           "issuer_group"]] []) =
      registerLoop []
        (RegState.mk
          [Collector.mk 0 "current_certificate_request_count"
            ["name", "namespace", "issuer_name", "issuer_kind",
             "issuer_group"]]
          [.failedToRegister "current_certificate_request_count"]) :=
  ⟨rfl,
   claim_C4
     (Collector.mk 100 "current_certificate_request_count" ["name"])
     (Collector.mk 0 "current_certificate_request_count"
       ["name", "namespace", "issuer_name", "issuer_kind", "issuer_group"])
     [] [] rfl (by decide) (by decide)⟩

/-- Claim C5: whenever the certificate-request lister fails,
`HandleCertificateRequestEvent` only appends the error log entry — the
recomputation is not invoked, the whole metrics state apart from the log
is unchanged, and in particular every previously exposed value of
`current_certificate_request_count` is served unchanged. -/
theorem claim_C5 (e : String) (cr : Option CertificateRequest)
    (event : Unit) (st : MetricsState) :
    HandleCertificateRequestEvent (.error e) cr event st =
      { st with
        logs := st.logs ++ ["Error fetching CertificateRequests: " ++ e] } ∧
    (∀ t : Labels,
      expositionCurrentCertificateRequestCount
        (HandleCertificateRequestEvent (.error e) cr event st) t =
        expositionCurrentCertificateRequestCount st t) ∧
    (HandleCertificateRequestEvent (.error e) cr event st).currentCertificateRequestCount =
      st.currentCertificateRequestCount := by
  exact ⟨rfl, fun _ => rfl, rfl⟩

/-- Claim C6: the full-recomputation method is idempotent — running it
twice in a row with the same snapshot leaves the entire metrics state
(and with it the exposed vector) exactly as one run does, because the
second run begins with the same `Reset()`. -/
theorem claim_C6 (crs : List CertificateRequest) (st : MetricsState) :
    updateCurrentCertificateRequestCountM crs
        (updateCurrentCertificateRequestCountM crs st) =
      updateCurrentCertificateRequestCountM crs st := by
  rfl

/-- Claim C7: for every finite sequence of
increment/decrement calls and every permutation of it, a tuple touched by
the sequence ends (starting from a fresh instrument) at increments minus
decrements, a tuple the sequence never touches keeps its exposed entry
(including absence) unchanged, and the final exposed value of every tuple
is the same for the permuted sequence. -/
theorem claim_C7 (ops ops' : List GaugeOp) (h : List.Perm ops ops')
    (t : Labels) :
    ((expositionCurrentCertificateRequestCount
        (applyCalls ops initialMetricsState) t).getD 0 =
      (incCount ops t : Int) - (decCount ops t : Int)) ∧
    (∀ st : MetricsState, incCount ops t + decCount ops t = 0 →
      expositionCurrentCertificateRequestCount (applyCalls ops st) t =
        expositionCurrentCertificateRequestCount st t) ∧
    (∀ st : MetricsState,
      expositionCurrentCertificateRequestCount (applyCalls ops st) t =
        expositionCurrentCertificateRequestCount (applyCalls ops' st) t) := by
  have hinc : incCount ops t = incCount ops' t :=
    List.Perm.countP_eq _ h
  have hdec : decCount ops t = decCount ops' t :=
    List.Perm.countP_eq _ h
  refine ⟨?_, ?_, ?_⟩
  · rw [expositionCurrentCertificateRequestCount,
      applyCalls_certificateRequestCount, gvLookup_applyGaugeOps]
    by_cases hz : incCount ops t + decCount ops t = 0
    · have h1 : incCount ops t = 0 := by omega
      have h2 : decCount ops t = 0 := by omega
      simp [hz, initialMetricsState, gvLookup, h1, h2]
    · simp [hz, initialMetricsState, gvLookup]
  · intro st hz
    rw [expositionCurrentCertificateRequestCount,
      expositionCurrentCertificateRequestCount,
      applyCalls_certificateRequestCount, gvLookup_applyGaugeOps, if_pos hz]
  · intro st
    rw [expositionCurrentCertificateRequestCount,
      expositionCurrentCertificateRequestCount,
      applyCalls_certificateRequestCount, applyCalls_certificateRequestCount,
      gvLookup_applyGaugeOps, gvLookup_applyGaugeOps, hinc, hdec]

/-- Witness for claim C7: the sequence inc, inc, dec on the tuple
(cert-a, ns1, issuer1, ClusterIssuer, cert-manager.io) against the
permutation dec, inc, inc. -/
theorem claim_C7_witness :
    List.Perm
      [GaugeOp.inc ⟨"cert-a", "ns1", "issuer1", "ClusterIssuer",
         "cert-manager.io"⟩,
       GaugeOp.inc ⟨"cert-a", "ns1", "issuer1", "ClusterIssuer",
         "cert-manager.io"⟩,
       GaugeOp.dec ⟨"cert-a", "ns1", "issuer1", "ClusterIssuer",
         "cert-manager.io"⟩]
      [GaugeOp.dec ⟨"cert-a", "ns1", "issuer1", "ClusterIssuer",
         "cert-manager.io"⟩,
       GaugeOp.inc ⟨"cert-a", "ns1", "issuer1", "ClusterIssuer",
         "cert-manager.io"⟩,
       GaugeOp.inc ⟨"cert-a", "ns1", "issuer1", "ClusterIssuer",
         "cert-manager.io"⟩] ∧
    ((expositionCurrentCertificateRequestCount
        (applyCalls
          [GaugeOp.inc ⟨"cert-a", "ns1", "issuer1", "ClusterIssuer",
             "cert-manager.io"⟩,
           GaugeOp.inc ⟨"cert-a", "ns1", "issuer1", "ClusterIssuer",
             "cert-manager.io"⟩,
           GaugeOp.dec ⟨"cert-a", "ns1", "issuer1", "ClusterIssuer",
             "cert-manager.io"⟩]
          initialMetricsState)
        ⟨"cert-a", "ns1", "issuer1", "ClusterIssuer",
         "cert-manager.io"⟩).getD 0 =
      (incCount
          [GaugeOp.inc ⟨"cert-a", "ns1", "issuer1", "ClusterIssuer",
             "cert-manager.io"⟩,
           GaugeOp.inc ⟨"cert-a", "ns1", "issuer1", "ClusterIssuer",
             "cert-manager.io"⟩,
           GaugeOp.dec ⟨"cert-a", "ns1", "issuer1", "ClusterIssuer",
             "cert-manager.io"⟩]
          ⟨"cert-a", "ns1", "issuer1", "ClusterIssuer",
           "cert-manager.io"⟩ : Int) -
        (decCount
          [GaugeOp.inc ⟨"cert-a", "ns1", "issuer1", "ClusterIssuer",
             "cert-manager.io"⟩,
           GaugeOp.inc ⟨"cert-a", "ns1", "issuer1", "ClusterIssuer",
             "cert-manager.io"⟩,
           GaugeOp.dec ⟨"cert-a", "ns1", "issuer1", "ClusterIssuer",
             "cert-manager.io"⟩]
          ⟨"cert-a", "ns1", "issuer1", "ClusterIssuer",
           "cert-manager.io"⟩ : Int)) := by
  refine ⟨by decide, ?_⟩
  exact (claim_C7
    [GaugeOp.inc ⟨"cert-a", "ns1", "issuer1", "ClusterIssuer",
       "cert-manager.io"⟩,
     GaugeOp.inc ⟨"cert-a", "ns1", "issuer1", "ClusterIssuer",
       "cert-manager.io"⟩,
     GaugeOp.dec ⟨"cert-a", "ns1", "issuer1", "ClusterIssuer",
       "cert-manager.io"⟩]
    [GaugeOp.dec ⟨"cert-a", "ns1", "issuer1", "ClusterIssuer",
       "cert-manager.io"⟩,
     GaugeOp.inc ⟨"cert-a", "ns1", "issuer1", "ClusterIssuer",
       "cert-manager.io"⟩,
     GaugeOp.inc ⟨"cert-a", "ns1", "issuer1", "ClusterIssuer",
       "cert-manager.io"⟩]
    (by decide)
    ⟨"cert-a", "ns1", "issuer1", "ClusterIssuer", "cert-manager.io"⟩).1

/-- Claim C8: the HTTP server returned by `NewServer` carries an
8-second read timeout, an 8-second write timeout and a 1 MiB maximum
header size, for every listener address and registry state. -/
theorem claim_C8 (lnAddr : String) (st : RegState) :
    (NewServer lnAddr st).snd.readTimeout = 8 * timeSecond ∧
    (NewServer lnAddr st).snd.writeTimeout = 8 * timeSecond ∧
    (NewServer lnAddr st).snd.maxHeaderBytes = 2 ^ 20 := by
  refine ⟨rfl, rfl, by rfl⟩

/-- Claim C9: for every injected clock reading, the deprecated
`clock_time_seconds` counter-func and the `clock_time_seconds_gauge`
gauge-func expose the same value — both collect callbacks evaluate
`float64(c.Now().Unix())` on the same clock abstraction. -/
theorem claim_C9 (c : Clock) :
    clockTimeSecondsValue c = clockTimeSecondsGaugeValue c := by
  rfl

/-- Claim C10: `HandleCertificateRequestEvent` never reads its
changed-object and event-descriptor parameters: with the same lister
outcome and starting state, any two choices of `cr` and `event` yield
the identical resulting state, logs included. -/
theorem claim_C10 (client : Except String (List CertificateRequest))
    (st : MetricsState) (cr1 cr2 : Option CertificateRequest)
    (ev1 ev2 : Unit) :
    HandleCertificateRequestEvent client cr1 ev1 st =
      HandleCertificateRequestEvent client cr2 ev2 st := by
  rfl

end CertManagerMetrics
